import Mathlib

/-!
Verification development for the frumpus browser (src/browser.py, src/url.py).

The Python source is shallowly embedded:
* Python strings are modelled as `String` / `List Char` (character lists for
  the scanning loops, so every parser run is a structural computation);
* the mutable open-element stack of `HTMLParser` is threaded explicitly as a
  `List OpenElem` (head = innermost open element, i.e. `unfinished_tags[-1]`);
* Python exceptions (IndexError from `list.pop()` / `[-1]` on an empty list,
  ValueError from unpacking, AssertionError) are modelled as `none`;
* the external tkinter type-metrics service is an abstract `Metrics` record
  (deterministic per font key, exactly like the `FONT_CACHE` lookup);
* geometry is over `ℚ` (the Python floats in layout are sums and products of
  integer metrics with the exact constant 1.25, so `ℚ` is faithful).
-/

/-! ## Constants (browser.py lines 7-9) -/

def WIDTH : ℚ := 800
def HEIGHT : ℚ := 600
def SCROLL_STEP : ℚ := 100
def HSTEP : ℚ := 13
def VSTEP : ℚ := 18

/-- browser.py lines 20-58: tags whose presence as a child forces block layout. -/
def BLOCK_ELEMENTS : List String :=
  ["html", "body", "article", "section", "nav", "aside",
   "h1", "h2", "h3", "h4", "h5", "h6", "hgroup", "header",
   "footer", "address", "p", "hr", "pre", "blockquote",
   "ol", "ul", "menu", "li", "dl", "dt", "dd", "figure",
   "figcaption", "main", "div", "table", "form", "fieldset",
   "legend", "details", "summary"]

/-- browser.py lines 118-133: `HTMLParser.SELF_CLOSING_TAGS`. -/
def SELF_CLOSING_TAGS : List String :=
  ["area", "base", "br", "col", "embed", "hr", "img",
   "input", "link", "meta", "param", "source", "track", "wbr"]

/-! ## Python string helpers over character lists -/

/-- Python `str.isspace()`: nonempty and all whitespace. -/
def isspaceChars (cs : List Char) : Bool :=
  !cs.isEmpty && cs.all Char.isWhitespace

/-- One step of Python `str.split()` (split on whitespace runs, drop empties). -/
def splitWsAux : List Char → List Char → List (List Char)
  | [], acc => if acc.isEmpty then [] else [acc.reverse]
  | c :: rest, acc =>
    if c.isWhitespace then
      if acc.isEmpty then splitWsAux rest []
      else acc.reverse :: splitWsAux rest []
    else splitWsAux rest (c :: acc)

/-- Python `str.split()` with no separator argument. -/
def splitWs (cs : List Char) : List (List Char) := splitWsAux cs []

/-- Python `str.split(sep, 1)`: split at the first occurrence of `sep`;
`none` when `sep` does not occur (so a 2-element unpack would raise). -/
def splitFirst (sep : Char) : List Char → Option (List Char × List Char)
  | [] => none
  | c :: rest =>
    if c = sep then some ([], rest)
    else (splitFirst sep rest).map fun p => (c :: p.1, p.2)

/-- Python `str.split(" ", 2)` (at most two splits, on the literal space). -/
def splitSpace2 (cs : List Char) : List (List Char) :=
  match splitFirst ' ' cs with
  | none => [cs]
  | some (a, rest) =>
    match splitFirst ' ' rest with
    | none => [a, rest]
    | some (b, c) => [a, b, c]

/-- Python `str.strip()`. -/
def stripChars (cs : List Char) : List Char :=
  ((cs.dropWhile Char.isWhitespace).reverse.dropWhile Char.isWhitespace).reverse

/-- Python `dict[key] = value` on an insertion-ordered association list. -/
def dictInsert : List (String × String) → String → String → List (String × String)
  | [], k, v => [(k, v)]
  | (k', v') :: rest, k, v =>
    if k' = k then (k, v) :: rest else (k', v') :: dictInsert rest k v

/-- First character test (Python `s.startswith(c)` for a single character). -/
def headIs (cs : List Char) (c : Char) : Bool :=
  match cs with
  | [] => false
  | d :: _ => d = c

/-! ## DOM data model (browser.py lines 71-94)

Parent back-references are weak/non-owning in the source and are never read by
the code under verification, so the embedding keeps only the owned tree. -/

inductive Node where
  | text (s : String) : Node
  | elem (tag : String) (attributes : List (String × String)) (children : List Node) : Node

/-- An entry of `HTMLParser.unfinished_tags`: an open element together with
the children accumulated so far. -/
structure OpenElem where
  tag : String
  attributes : List (String × String)
  children : List Node

def toNode (e : OpenElem) : Node := .elem e.tag e.attributes e.children

/-! ## HTMLParser (browser.py lines 115-228) -/

/-- browser.py lines 161-169, `HTMLParser.add_text`.
`unfinished_tags[-1]` on an empty stack raises IndexError, modelled as `none`. -/
def add_text (text : List Char) (stack : List OpenElem) : Option (List OpenElem) :=
  if isspaceChars text then some stack
  else
    match stack with
    | [] => none
    | parent :: rest =>
      some ({ parent with children := parent.children ++ [Node.text (String.mk text)] } :: rest)

/-- browser.py lines 171-189, `HTMLParser.get_attributes`.
`parts[0]` on an empty split result raises IndexError, modelled as `none`.
`casefold` is modelled as `Char.toLower` (ASCII-faithful). -/
def get_attributes (text : List Char) : Option (List Char × List (String × String)) :=
  match splitWs text with
  | [] => none
  | tagcs :: attrParts =>
    let attributes := attrParts.foldl
      (fun attrs attrpair =>
        match splitFirst '=' attrpair with
        | some (key, value) =>
          let value :=
            if value.length > 2 && (headIs value '\'' || headIs value '"') then
              (value.drop 1).dropLast
            else value
          dictInsert attrs (String.mk (key.map Char.toLower)) (String.mk value)
        | none => dictInsert attrs (String.mk (attrpair.map Char.toLower)) "")
      []
    some (tagcs.map Char.toLower, attributes)

/-- browser.py lines 191-219, `HTMLParser.add_tag`.
`list.pop()` / `[-1]` on an empty stack raise IndexError, modelled as `none`. -/
def add_tag (text : List Char) (stack : List OpenElem) : Option (List OpenElem) :=
  match get_attributes text with
  | none => none
  | some (tag, attributes) =>
    if headIs tag '!' then some stack
    else if headIs tag '/' && stack.length == 1 then some stack
    else if headIs tag '/' then
      match stack with
      | [] => none
      | node :: rest =>
        match rest with
        | [] => none
        | parent :: rest2 =>
          some ({ parent with children := parent.children ++ [toNode node] } :: rest2)
    else if SELF_CLOSING_TAGS.contains (String.mk tag) then
      match stack with
      | [] => none
      | parent :: rest =>
        some ({ parent with children :=
                  parent.children ++ [Node.elem (String.mk tag) attributes []] } :: rest)
    else
      some (⟨String.mk tag, attributes, []⟩ :: stack)

/-- The loop body of browser.py lines 223-226: pop the innermost open element
and append it as a child of the new stack top, until one element remains. -/
def finishAux (node : OpenElem) : List OpenElem → Node
  | [] => toNode node
  | parent :: rest => finishAux { parent with children := parent.children ++ [toNode node] } rest

/-- browser.py lines 221-228, `HTMLParser.finish`.
The final `pop()` on an empty stack raises IndexError, modelled as `none`. -/
def finish : List OpenElem → Option Node
  | [] => none
  | node :: rest => some (finishAux node rest)

/-- Scanner state of `HTMLParser.parse`: the pending text buffer, the
`in_tag` flag, and the open-element stack. -/
structure PState where
  text : List Char
  in_tag : Bool
  stack : List OpenElem

/-- One character of the scan loop, browser.py lines 143-154. -/
def parseStep (st : PState) (c : Char) : Option PState :=
  if c = '<' then
    (if st.text.isEmpty then some st.stack else add_text st.text st.stack).map
      fun s => ⟨[], true, s⟩
  else if c = '>' then
    (add_tag st.text st.stack).map fun s => ⟨[], false, s⟩
  else
    some ⟨st.text ++ [c], st.in_tag, st.stack⟩

/-- The scan loop of browser.py lines 139-154. -/
def scan (body : String) : Option PState :=
  body.data.foldlM parseStep ⟨[], false, []⟩

/-- browser.py lines 139-159, `HTMLParser.parse`: scan, flush trailing text,
then `finish()`. -/
def parse (body : String) : Option Node := do
  let st ← scan body
  let stack ←
    if !st.in_tag && !st.text.isEmpty then add_text st.text st.stack
    else some st.stack
  finish stack

/-! ## Fonts and the external type-metrics service -/

/-- A font key as used by `get_font` (browser.py lines 61-68): the cache is a
pure lookup, so a font is determined by (size, weight, slant). -/
structure Font where
  size : Int
  weight : String
  style : String

/-- The external tkinter metrics: `font.measure` and `font.metrics`.
Deterministic per font key, as the spec requires of the collaborator. -/
structure Metrics where
  measure : Font → String → ℚ
  ascent : Font → ℚ
  descent : Font → ℚ

/-- A display-list entry `(x, y, word, font)` as appended in `flush`
(browser.py line 412). -/
structure Frag where
  x : ℚ
  y : ℚ
  word : String
  font : Font

/-- Python `max` over a nonempty list (the `[]` case is never reached: every
call site guards on a nonempty line). -/
def listMax : List ℚ → ℚ
  | [] => 0
  | a :: rest => rest.foldl max a

/-! ## Inline layout state (fields of BlockLayout, browser.py lines 278-287) -/

structure IState where
  cursor_x : ℚ
  cursor_y : ℚ
  weight : String
  style : String
  size : Int
  line : List (ℚ × String × Font)
  display_list : List Frag

/-- browser.py lines 397-419, `BlockLayout.flush`. `sx`, `sy` are the box's
resolved `self.x`, `self.y` used to translate to page coordinates. -/
def flush (M : Metrics) (sx sy : ℚ) (st : IState) : IState :=
  match st.line with
  | [] => st
  | entry :: restLine =>
    let line := entry :: restLine
    let max_ascent := listMax (line.map fun e => M.ascent e.2.2)
    let baseline := st.cursor_y + 5/4 * max_ascent
    let newFrags : List Frag :=
      line.map fun e => ⟨sx + e.1, sy + baseline - M.ascent e.2.2, e.2.1, e.2.2⟩
    let max_descent := listMax (line.map fun e => M.descent e.2.2)
    { st with
      display_list := st.display_list ++ newFrags
      cursor_y := baseline + 5/4 * max_descent
      cursor_x := 0
      line := [] }

/-- browser.py lines 384-395, `BlockLayout.layout_word`. -/
def layout_word (M : Metrics) (width sx sy : ℚ) (st : IState) (word : String) : IState :=
  let font : Font := ⟨st.size, st.weight, st.style⟩
  let w := M.measure font word
  let st := if st.cursor_x + w > width then flush M sx sy st else st
  { st with
    line := st.line ++ [(st.cursor_x, word, font)]
    cursor_x := st.cursor_x + w + M.measure font " " }

/-- browser.py lines 357-368, `BlockLayout.open_tag`. -/
def open_tag (M : Metrics) (sx sy : ℚ) (tag : String) (st : IState) : IState :=
  if tag = "i" then { st with style := "italic" }
  else if tag = "b" then { st with weight := "bold" }
  else if tag = "small" then { st with size := st.size - 2 }
  else if tag = "big" then { st with size := st.size + 4 }
  else if tag = "br" then flush M sx sy st
  else st

/-- browser.py lines 370-382, `BlockLayout.close_tag`. -/
def close_tag (M : Metrics) (sx sy : ℚ) (tag : String) (st : IState) : IState :=
  if tag = "i" then { st with style := "roman" }
  else if tag = "b" then { st with weight := "normal" }
  else if tag = "small" then { st with size := st.size + 2 }
  else if tag = "big" then { st with size := st.size - 4 }
  else if tag = "p" then
    let st := flush M sx sy st
    { st with cursor_y := st.cursor_y + VSTEP }
  else st

mutual
/-- browser.py lines 346-355, `BlockLayout.recurse_layout`. -/
def recurse_layout (M : Metrics) (width sx sy : ℚ) : Node → IState → IState
  | .text t, st =>
    (splitWs t.data).foldl (fun s wcs => layout_word M width sx sy s (String.mk wcs)) st
  | .elem tag _ children, st =>
    close_tag M sx sy tag (recurse_list M width sx sy children (open_tag M sx sy tag st))
termination_by structural n => n

def recurse_list (M : Metrics) (width sx sy : ℚ) : List Node → IState → IState
  | [], st => st
  | c :: cs, st => recurse_list M width sx sy cs (recurse_layout M width sx sy c st)
termination_by structural l => l
end

/-- browser.py lines 330-344, `BlockLayout.get_layout_mode`. -/
def get_layout_mode : Node → String
  | .text _ => "inline"
  | .elem _ _ children =>
    if children.any (fun c =>
        match c with
        | .elem t _ _ => BLOCK_ELEMENTS.contains t
        | .text _ => false) then "block"
    else if !children.isEmpty then "inline"
    else "block"

/-- The result of `BlockLayout.layout`: resolved geometry, the box's own
`display_list`, and the child boxes created in block mode. -/
structure BoxResult where
  x : ℚ
  y : ℚ
  width : ℚ
  height : ℚ
  display_list : List Frag
  children : List BoxResult

/-- The inline branch of `BlockLayout.layout` (browser.py lines 317-328):
reset the cursor and style context, recurse over the DOM subtree, flush the
final line; height is the final `cursor_y`, and no child boxes are created. -/
def layoutInline (M : Metrics) (node : Node) (x y width : ℚ) : BoxResult :=
  let st0 : IState :=
    { cursor_x := 0, cursor_y := 0, weight := "normal", style := "roman",
      size := 12, line := [], display_list := [] }
  let st := flush M x y (recurse_layout M width x y node st0)
  { x := x, y := y, width := width, height := st.cursor_y,
    display_list := st.display_list, children := [] }

mutual
/-- browser.py lines 289-328, `BlockLayout.layout`. The box's `x`/`width`
come from the parent and `y` from the previous sibling chain; the caller
passes the resolved `y` directly. In block mode one child box is created per
DOM child, each child's display list is copied into this box's own
`display_list` (line 312), and height is the sum of the children's heights. -/
def layoutNode (M : Metrics) : Node → ℚ → ℚ → ℚ → BoxResult
  | .text s, x, y, width => layoutInline M (.text s) x y width
  | .elem tag attrs children, x, y, width =>
    if get_layout_mode (.elem tag attrs children) = "block" then
      let rs := layoutChildren M children x y width
      { x := x, y := y, width := width,
        height := (rs.map BoxResult.height).sum,
        display_list := (rs.map BoxResult.display_list).flatten,
        children := rs }
    else layoutInline M (.elem tag attrs children) x y width
termination_by structural n => n

/-- The block-mode child loop of `BlockLayout.layout` (browser.py lines
303-311): each child is laid out at the running `y`, which advances by the
child's height (`previous.y + previous.height`). -/
def layoutChildren (M : Metrics) : List Node → ℚ → ℚ → ℚ → List BoxResult
  | [], _, _, _ => []
  | n :: ns, x, cury, width =>
    let r := layoutNode M n x cury width
    r :: layoutChildren M ns x (cury + r.height) width
termination_by structural l => l
end

/-- The result of `DocumentLayout.layout` (browser.py lines 231-260):
fixed geometry and a single `BlockLayout` child. -/
structure DocResult where
  x : ℚ
  y : ℚ
  width : ℚ
  height : ℚ
  child : BoxResult

/-- browser.py lines 245-256, `DocumentLayout.layout`. -/
def document_layout (M : Metrics) (node : Node) : DocResult :=
  let child := layoutNode M node HSTEP VSTEP (WIDTH - 2 * HSTEP)
  { x := HSTEP, y := VSTEP, width := WIDTH - 2 * HSTEP,
    height := child.height, child := child }

mutual
/-- browser.py lines 104-112, `paint_tree`, on a `BlockLayout` box:
append this box's `paint()` result (its `display_list`, line 421-423),
then recurse into the children in stored order. -/
def paint_tree : BoxResult → List Frag
  | ⟨_, _, _, _, display_list, children⟩ => display_list ++ paint_list children
termination_by structural b => b

def paint_list : List BoxResult → List Frag
  | [] => []
  | b :: bs => paint_tree b ++ paint_list bs
termination_by structural l => l
end

/-- browser.py lines 440-456, `Browser.load` up to the display list:
parse, lay out the document, and flatten with `paint_tree`
(`DocumentLayout.paint` contributes `[]`). -/
def load (M : Metrics) (body : String) : Option (List Frag) :=
  (parse body).map fun root => paint_tree (document_layout M root).child

/-- browser.py lines 458-463, `Browser.draw`, as the spec's
`project(fragments, scroll_offset, viewport_height)`: cull a fragment when
`y > scroll + H` or `y + VSTEP < scroll`, otherwise emit at `(x, y - scroll)`. -/
def project (frags : List Frag) (scroll H : ℚ) : List Frag :=
  frags.filterMap fun f =>
    if f.y > scroll + H ∨ f.y + VSTEP < scroll then none
    else some { f with y := f.y - scroll }

/-- `Browser.draw` itself uses the fixed viewport height. -/
def draw (frags : List Frag) (scroll : ℚ) : List Frag :=
  project frags scroll HEIGHT

/-! ## URL.request (url.py lines 34-87)

The socket transport is external; the embedding takes the response as the
sequence of lines `readline` would return (each keeping its newline, the
header/content separator being the bare `"\n"`), followed by the content
lines returned by `read()`. Unpacking failures (ValueError) and the
encoding `assert` (AssertionError) are modelled as `none`. -/

/-- url.py lines 70-76: the header loop. `readline` at end of stream yields
`""`, whose 2-element unpack raises, modelled by the `[]` case. -/
def parseHeaders (acc : List (String × String)) :
    List String → Option (List (String × String) × List String)
  | [] => none
  | line :: rest =>
    if line = "\n" then some (acc, rest)
    else
      match splitFirst ':' line.data with
      | none => none
      | some (header, value) =>
        parseHeaders
          (dictInsert acc (String.mk (header.map Char.toLower)) (String.mk (stripChars value)))
          rest

/-- url.py lines 34-87, `URL.request`, from the response stream on: parse the
status line (a 3-way unpack of `split(" ", 2)`), parse headers up to the
blank line, assert that no transfer-encoding or content-encoding header is
present, and return the remaining stream as the content. -/
def request : List String → Option String
  | [] => none
  | statusline :: rest =>
    match splitSpace2 statusline.data with
    | [_, _, _] =>
      match parseHeaders [] rest with
      | none => none
      | some (response_headers, content) =>
        if response_headers.any (fun p => p.1 == "transfer-encoding")
            || response_headers.any (fun p => p.1 == "content-encoding") then none
        else some (String.join content)
    | _ => none

/-- A concrete type-metrics service used for concrete runs: every glyph
advances 10 units, ascent 8, descent 4 (independent of the font key). -/
def testM : Metrics :=
  { measure := fun _ s => (s.length : ℚ) * 10
    ascent := fun _ => 8
    descent := fun _ => 4 }

/-- Bool-valued check of the block-stacking chain: the first box sits at the
parent's `y`, every later box at its previous sibling's `y` plus height. -/
def chainFrom (y : ℚ) : List BoxResult → Bool
  | [] => true
  | c :: cs => (c.y == y) && chainFrom (c.y + c.height) cs

/-- A second concrete metrics service whose values depend on the font size,
so that mixed sizes on one line exercise the baseline computation. -/
def testM2 : Metrics :=
  { measure := fun f s => (s.length : ℚ) * (f.size : ℚ)
    ascent := fun f => (f.size : ℚ)
    descent := fun f => (f.size : ℚ) / 2 }

/-- A concrete inline state with a pending two-word line of mixed font sizes. -/
def stW : IState :=
  { cursor_x := 55, cursor_y := 0, weight := "normal", style := "roman", size := 12,
    line := [(0, "w1", ⟨12, "normal", "roman"⟩), (5, "w2", ⟨16, "bold", "roman"⟩)],
    display_list := [] }

/-! ## Theorems -/

/-! ### Shared helper lemmas -/

lemma headIs_slash_not_bang {cs : List Char} (h : headIs cs '/' = true) :
    headIs cs '!' = false := by
  cases cs with
  | nil => simp [headIs] at h
  | cons d rest =>
    simp [headIs] at h
    simp [headIs, h]

lemma add_text_ne_nil (t : List Char) (st : List OpenElem) (h : st ≠ []) :
    ∃ st', add_text t st = some st' ∧ st' ≠ [] := by
  unfold add_text
  by_cases hs : isspaceChars t = true
  · exact ⟨st, by simp [hs], h⟩
  · cases st with
    | nil => exact absurd rfl h
    | cons parent rest =>
      refine ⟨{ parent with children := parent.children ++ [Node.text (String.mk t)] } :: rest,
        by simp [hs], by simp⟩

lemma finish_ne_nil (st : List OpenElem) (h : st ≠ []) : ∃ n, finish st = some n := by
  cases st with
  | nil => exact absurd rfl h
  | cons e rest => exact ⟨finishAux e rest, rfl⟩

lemma flush_empty_line (M : Metrics) (sx sy : ℚ) (st : IState) (h : st.line = []) :
    flush M sx sy st = st := by
  unfold flush
  rw [h]

/-! ### C1: malformed markup -/

/-- C1, counterexample. The claim says parsing raises no error on every input
string and that an unmatched closing tag with no open ancestor is silently
dropped. On the input consisting of a single stray closing tag `</a>` the
open-element stack is empty, the length-1 guard does not apply, and
`unfinished_tags.pop()` raises IndexError: `parse` fails. -/
theorem parse_stray_close_raises : parse "</a>" = none := rfl

/-- C1, amended. While at least one element is open, malformed markup is
non-fatal: (1) `add_text` never raises on a nonempty stack; (2) a closing tag
arriving when exactly one element is open (no open ancestor to receive it) is
silently dropped, leaving the open-element stack — hence the sibling
structure — unchanged; (3) `finish` auto-closes all unterminated open tags
and returns a root whenever the stack is nonempty; (4) an unknown tag name
(not starting with `!` or `/` and not in the void-element set) is pushed as an
ordinary open element, exactly like a known one; (5) such an element is
non-block for layout: an element with a lone text child lays out inline
whatever its tag. (`parse` itself can raise when the stack is empty, as the
counterexample shows.) -/
theorem parser_malformed_recovery :
    (∀ (t : List Char) (st : List OpenElem), st ≠ [] → (add_text t st).isSome = true) ∧
    (∀ (text tag : List Char) (attrs : List (String × String)) (e : OpenElem),
      get_attributes text = some (tag, attrs) → headIs tag '/' = true →
      add_tag text [e] = some [e]) ∧
    (∀ st : List OpenElem, st ≠ [] → (finish st).isSome = true) ∧
    (∀ (text tag : List Char) (attrs : List (String × String)) (st : List OpenElem),
      get_attributes text = some (tag, attrs) →
      headIs tag '!' = false → headIs tag '/' = false →
      SELF_CLOSING_TAGS.contains (String.mk tag) = false →
      add_tag text st = some (⟨String.mk tag, attrs, []⟩ :: st)) ∧
    (∀ (tag : String) (attrs : List (String × String)) (s : String),
      get_layout_mode (.elem tag attrs [.text s]) = "inline") := by
  refine ⟨?_, ?_, ?_, ?_, ?_⟩
  · intro t st h
    obtain ⟨st', hst', _⟩ := add_text_ne_nil t st h
    simp [hst']
  · intro text tag attrs e hga hslash
    unfold add_tag
    rw [hga]
    simp [headIs_slash_not_bang hslash, hslash]
  · intro st h
    obtain ⟨n, hn⟩ := finish_ne_nil st h
    simp [hn]
  · intro text tag attrs st hga hbang hslash hvoid
    unfold add_tag
    rw [hga]
    have hv : ¬((⟨tag⟩ : String) ∈ SELF_CLOSING_TAGS) := by
      simpa using hvoid
    simp [hbang, hslash, hv]
  · intro tag attrs s
    rfl

/-- C1 witness: the amended theorem applied at concrete inputs — text under an
open `<b>`, a stray `</b>` with `<b>` the only open element, `finish` on that
stack, and the unknown tag `<foo>`. -/
theorem parser_malformed_recovery_witness :
    (add_text ['h', 'i'] [⟨"b", [], []⟩]).isSome = true ∧
    add_tag ['/', 'b'] [⟨"b", [], []⟩] = some [⟨"b", [], []⟩] ∧
    (finish [⟨"b", [], []⟩]).isSome = true ∧
    add_tag ['f', 'o', 'o'] [⟨"b", [], []⟩] = some [⟨"foo", [], []⟩, ⟨"b", [], []⟩] ∧
    get_layout_mode (.elem "foo" [] [.text "hi"]) = "inline" := by
  refine ⟨?_, ?_, ?_, ?_, ?_⟩
  · exact parser_malformed_recovery.1 ['h', 'i'] [⟨"b", [], []⟩] (by simp)
  · exact parser_malformed_recovery.2.1 ['/', 'b'] ['/', 'b'] [] ⟨"b", [], []⟩ rfl rfl
  · exact parser_malformed_recovery.2.2.1 [⟨"b", [], []⟩] (by simp)
  · exact parser_malformed_recovery.2.2.2.1 ['f', 'o', 'o'] ['f', 'o', 'o'] []
      [⟨"b", [], []⟩] rfl rfl rfl rfl
  · exact parser_malformed_recovery.2.2.2.2 "foo" [] "hi"

/-! ### C2: parse returns exactly one root -/

/-- C2, counterexample. The claim says `parse` returns exactly one root node
for every input string. On the empty string no element is ever opened, and
`finish` executes `self.unfinished_tags.pop()` on an empty list, raising
IndexError: `parse` fails instead of returning a root. -/
theorem parse_empty_no_root : parse "" = none := rfl

/-- C2, amended. Whenever the character scan completes without raising and at
least one element was opened (the open stack is nonempty), the pipeline
returns exactly one root node: trailing text is added without error, and
`finish` repeatedly pops each still-open element onto the new stack top until
a single node remains, which is returned. -/
theorem parse_single_root (s : String) (ps : PState)
    (hscan : scan s = some ps) (hne : ps.stack ≠ []) :
    ∃ root, parse s = some root := by
  unfold parse
  rw [hscan]
  simp only [Option.bind_eq_bind, Option.some_bind]
  by_cases hc : (!ps.in_tag && !ps.text.isEmpty) = true
  · rw [if_pos hc]
    obtain ⟨st', hst', hne'⟩ := add_text_ne_nil ps.text ps.stack hne
    rw [hst']
    obtain ⟨n, hn⟩ := finish_ne_nil st' hne'
    exact ⟨n, by simp [hn]⟩
  · rw [if_neg hc]
    obtain ⟨n, hn⟩ := finish_ne_nil ps.stack hne
    exact ⟨n, by simp [hn]⟩

/-- C2 witness: on `"<b>hi"` the scan ends with the unterminated `<b>` still
open and pending text `hi`; `parse` returns a single root. -/
theorem parse_single_root_witness :
    (⟨['h', 'i'], false, [⟨"b", [], []⟩]⟩ : PState).stack ≠ [] ∧
    ∃ root, parse "<b>hi" = some root := by
  refine ⟨by simp, ?_⟩
  exact parse_single_root "<b>hi" ⟨['h', 'i'], false, [⟨"b", [], []⟩]⟩ rfl (by simp)

/-! ### C5: flush emits a shared baseline -/

/-- C5: for a nonempty pending line, `flush` computes the baseline as
`cursor_y + 1.25 * max ascent` over the line, emits each word at vertical
position `baseline - its own ascent` (translated by the box's `y`, so the
page-y plus own ascent is the same constant across the line), and then sets
`cursor_y` to `baseline + 1.25 * max descent`; a flush on an empty line
changes nothing. -/
theorem flush_shared_baseline (M : Metrics) (sx sy : ℚ) (st : IState) :
    (st.line = [] → flush M sx sy st = st) ∧
    (st.line ≠ [] →
      (flush M sx sy st).display_list = st.display_list ++ st.line.map (fun e =>
        ⟨sx + e.1,
         sy + (st.cursor_y + 5/4 * listMax (st.line.map fun e2 => M.ascent e2.2.2))
           - M.ascent e.2.2, e.2.1, e.2.2⟩) ∧
      (∀ f ∈ (flush M sx sy st).display_list.drop st.display_list.length,
        f.y + M.ascent f.font
          = sy + (st.cursor_y + 5/4 * listMax (st.line.map fun e2 => M.ascent e2.2.2))) ∧
      (flush M sx sy st).cursor_y
        = (st.cursor_y + 5/4 * listMax (st.line.map fun e2 => M.ascent e2.2.2))
          + 5/4 * listMax (st.line.map fun e2 => M.descent e2.2.2)) := by
  constructor
  · intro h
    exact flush_empty_line M sx sy st h
  · intro h
    obtain ⟨entry, restLine, hline⟩ := List.exists_cons_of_ne_nil h
    have hred : flush M sx sy st =
        { st with
          display_list := st.display_list ++ (entry :: restLine).map (fun e =>
            ⟨sx + e.1,
             sy + (st.cursor_y
               + 5/4 * listMax ((entry :: restLine).map fun e2 => M.ascent e2.2.2))
               - M.ascent e.2.2, e.2.1, e.2.2⟩),
          cursor_y := (st.cursor_y
              + 5/4 * listMax ((entry :: restLine).map fun e2 => M.ascent e2.2.2))
            + 5/4 * listMax ((entry :: restLine).map fun e2 => M.descent e2.2.2),
          cursor_x := 0, line := [] } := by
      unfold flush
      rw [hline]
    rw [hline, hred]
    refine ⟨rfl, ?_, rfl⟩
    intro f hf
    rw [List.drop_left] at hf
    simp only [List.mem_map] at hf
    obtain ⟨e, _, rfl⟩ := hf
    ring

/-- C5 witness: flushing a concrete two-word line of sizes 12 and 16 under
`testM2` (max ascent 16, baseline `0 + 1.25 * 16 = 20`): the words land at
page-y `18 + 20 - 12 = 26` and `18 + 20 - 16 = 22` (shared baseline), and
`cursor_y` advances to `20 + 1.25 * 8 = 30`. -/
theorem flush_shared_baseline_witness :
    stW.line ≠ [] ∧
    (flush testM2 13 18 stW).display_list =
      [⟨13, 26, "w1", ⟨12, "normal", "roman"⟩⟩, ⟨18, 22, "w2", ⟨16, "bold", "roman"⟩⟩] ∧
    (flush testM2 13 18 stW).cursor_y = 30 := by
  have h := (flush_shared_baseline testM2 13 18 stW).2 (by simp [stW])
  refine ⟨by simp [stW], ?_, ?_⟩
  · rw [h.1]
    norm_num [stW, testM2, listMax, max_def]
  · rw [h.2.2]
    norm_num [stW, testM2, listMax, max_def]

/-! ### C6: block mode heights and vertical stacking -/

lemma layoutNode_y (M : Metrics) (n : Node) (x y width : ℚ) :
    (layoutNode M n x y width).y = y := by
  cases n with
  | text s => rfl
  | elem tag attrs children =>
    unfold layoutNode
    split
    · rfl
    · rfl

lemma layoutChildren_chain (M : Metrics) (ns : List Node) (x width : ℚ) :
    ∀ cury : ℚ, chainFrom cury (layoutChildren M ns x cury width) = true := by
  induction ns with
  | nil => intro cury; rfl
  | cons n ns ih =>
    intro cury
    simp only [layoutChildren, chainFrom]
    rw [layoutNode_y]
    simp [ih]

/-- C6: a box laid out in block mode has height equal to the exact sum of its
children's heights, and the children stack sequentially: the first child's y
is the parent's y, and each later child's y is its previous sibling's y plus
that sibling's height. -/
theorem block_height_and_stacking (M : Metrics) (tag : String)
    (attrs : List (String × String)) (children : List Node) (x y width : ℚ)
    (h : get_layout_mode (Node.elem tag attrs children) = "block") :
    (layoutNode M (Node.elem tag attrs children) x y width).height =
      ((layoutNode M (Node.elem tag attrs children) x y width).children.map
        BoxResult.height).sum ∧
    chainFrom y (layoutNode M (Node.elem tag attrs children) x y width).children = true := by
  unfold layoutNode
  rw [if_pos h]
  exact ⟨rfl, layoutChildren_chain M children x width y⟩

/-- C6 witness: a concrete `<html>` box with two `<p>` children resolves to
block mode; its height is the sum of the children's heights and the children
chain vertically from the parent's y. -/
theorem block_height_and_stacking_witness :
    get_layout_mode (Node.elem "html" []
      [Node.elem "p" [] [Node.text "hi"], Node.elem "p" [] [Node.text "ho"]]) = "block" ∧
    (layoutNode testM (Node.elem "html" []
      [Node.elem "p" [] [Node.text "hi"], Node.elem "p" [] [Node.text "ho"]]) 13 18 774).height =
      ((layoutNode testM (Node.elem "html" []
        [Node.elem "p" [] [Node.text "hi"], Node.elem "p" [] [Node.text "ho"]])
          13 18 774).children.map BoxResult.height).sum ∧
    chainFrom 18 (layoutNode testM (Node.elem "html" []
      [Node.elem "p" [] [Node.text "hi"], Node.elem "p" [] [Node.text "ho"]])
        13 18 774).children = true := by
  refine ⟨rfl, ?_, ?_⟩
  · exact (block_height_and_stacking testM "html" []
      [Node.elem "p" [] [Node.text "hi"], Node.elem "p" [] [Node.text "ho"]] 13 18 774 rfl).1
  · exact (block_height_and_stacking testM "html" []
      [Node.elem "p" [] [Node.text "hi"], Node.elem "p" [] [Node.text "ho"]] 13 18 774 rfl).2

/-! ### C7: viewport projection -/

/-- C7, counterexample. The claim says projection at scroll offset 0 is the
identity restricted to fragments with `y ∈ [0, H]`. A fragment at `y = -1`
is kept by the code (since `-1 + VSTEP = 17 ≥ 0`) although `-1 ∉ [0, 600]`,
so the restriction equation fails. -/
theorem project_zero_keeps_negative_y :
    project [⟨0, -1, "w", ⟨12, "normal", "roman"⟩⟩] 0 600 =
      [⟨0, -1, "w", ⟨12, "normal", "roman"⟩⟩] ∧
    ¬ ((0 : ℚ) ≤ -1) := by
  constructor
  · show List.filterMap _ _ = _
    norm_num [List.filterMap_cons, VSTEP]
  · norm_num

/-- C7, amended. Projection keeps a fragment at page-y `y` iff neither
`y > scroll + H` nor `y + line_height < scroll` (with `line_height = VSTEP`),
emitting it at `(x, y - scroll)`; consequently projection with scroll offset 0
is the identity restricted to fragments with `y ∈ [-VSTEP, H]` (not `[0, H]`:
fragments less than one line height above the top edge are kept too). -/
theorem project_culling (frags : List Frag) (s H : ℚ) :
    project frags s H = frags.filterMap (fun f =>
      if f.y ≤ s + H ∧ s ≤ f.y + VSTEP then some ⟨f.x, f.y - s, f.word, f.font⟩ else none) ∧
    project frags 0 H = frags.filter (fun f => decide (-VSTEP ≤ f.y ∧ f.y ≤ H)) := by
  constructor
  · induction frags with
    | nil => rfl
    | cons f fs ih =>
      simp only [project, List.filterMap_cons] at ih ⊢
      by_cases h1 : f.y > s + H
      · have hn : ¬ (f.y ≤ s + H ∧ s ≤ f.y + VSTEP) := fun hc => absurd hc.1 (not_le.mpr h1)
        simp [h1, hn, ih]
      · by_cases h2 : f.y + VSTEP < s
        · have hn : ¬ (f.y ≤ s + H ∧ s ≤ f.y + VSTEP) := fun hc => absurd hc.2 (not_le.mpr h2)
          simp [h1, h2, hn, ih]
        · have hk1 : f.y ≤ s + H := le_of_not_lt h1
          have hk2 : s ≤ f.y + VSTEP := le_of_not_lt h2
          simp [h1, h2, hk1, hk2, ih]
  · induction frags with
    | nil => rfl
    | cons f fs ih =>
      simp only [project, gt_iff_lt, zero_add, sub_zero, List.filterMap_cons,
        List.filter_cons] at ih ⊢
      by_cases h1 : H < f.y
      · have hd : ¬ f.y ≤ H := not_le.mpr h1
        simp [h1, hd, ih]
      · by_cases h2 : f.y + VSTEP < 0
        · have hd : ¬ -VSTEP ≤ f.y := by
            intro hc
            linarith
          simp [h1, h2, hd, ih]
        · have hk1 : -VSTEP ≤ f.y := by
            have := le_of_not_lt h2
            linarith
          have hk2 : f.y ≤ H := le_of_not_lt h1
          simp [h1, h2, hk1, hk2, ih]

/-! ### C8: styling tags open/close -/

/-- C8, counterexample. The claim says open-then-close restores every style
context. Starting from a context whose slant is already `italic`, `<i>` then
`</i>` sets the slant to `roman` (the closing handler assigns the fixed
default rather than reverting), so the original context is not restored. -/
theorem open_close_italic_not_restored :
    (close_tag testM 0 0 "i" (open_tag testM 0 0 "i"
      ⟨0, 0, "normal", "italic", 12, [], []⟩)).style = "roman" ∧
    ("roman" : String) ≠ "italic" := by
  constructor
  · rfl
  · decide

/-- C8, amended. The size tags are symmetric for every style context
(`small` does `-2` then `+2`, `big` does `+4` then `-4`), so open-then-close
restores the context exactly; for `i` and `b` the closing handler assigns the
fixed defaults `roman`/`normal`, so open-then-close restores the context
exactly when the original slant was `roman` (for `i`), respectively the
original weight was `normal` (for `b`) — e.g. from the default context —
but not from an already-italic or already-bold context. -/
theorem style_tags_open_close (M : Metrics) (sx sy : ℚ) (st : IState) :
    close_tag M sx sy "small" (open_tag M sx sy "small" st) = st ∧
    close_tag M sx sy "big" (open_tag M sx sy "big" st) = st ∧
    (st.style = "roman" → close_tag M sx sy "i" (open_tag M sx sy "i" st) = st) ∧
    (st.weight = "normal" → close_tag M sx sy "b" (open_tag M sx sy "b" st) = st) := by
  obtain ⟨cx, cy, w, sty, sz, ln, dl⟩ := st
  refine ⟨?_, ?_, ?_, ?_⟩
  · simp +decide [open_tag, close_tag]
  · simp +decide [open_tag, close_tag]
  · intro h
    simp only [IState.style] at h
    subst h
    simp +decide [open_tag, close_tag]
  · intro h
    simp only [IState.weight] at h
    subst h
    simp +decide [open_tag, close_tag]

/-- C8 witness: the amended theorem applied at the default style context
(weight `normal`, slant `roman`, size 12): all four tag pairs restore it. -/
theorem style_tags_open_close_witness :
    (⟨0, 0, "normal", "roman", 12, [], []⟩ : IState).style = "roman" ∧
    (⟨0, 0, "normal", "roman", 12, [], []⟩ : IState).weight = "normal" ∧
    close_tag testM 0 0 "small" (open_tag testM 0 0 "small"
      ⟨0, 0, "normal", "roman", 12, [], []⟩) = ⟨0, 0, "normal", "roman", 12, [], []⟩ ∧
    close_tag testM 0 0 "big" (open_tag testM 0 0 "big"
      ⟨0, 0, "normal", "roman", 12, [], []⟩) = ⟨0, 0, "normal", "roman", 12, [], []⟩ ∧
    close_tag testM 0 0 "i" (open_tag testM 0 0 "i"
      ⟨0, 0, "normal", "roman", 12, [], []⟩) = ⟨0, 0, "normal", "roman", 12, [], []⟩ ∧
    close_tag testM 0 0 "b" (open_tag testM 0 0 "b"
      ⟨0, 0, "normal", "roman", 12, [], []⟩) = ⟨0, 0, "normal", "roman", 12, [], []⟩ := by
  refine ⟨rfl, rfl, ?_, ?_, ?_, ?_⟩
  · exact (style_tags_open_close testM 0 0 ⟨0, 0, "normal", "roman", 12, [], []⟩).1
  · exact (style_tags_open_close testM 0 0 ⟨0, 0, "normal", "roman", 12, [], []⟩).2.1
  · exact (style_tags_open_close testM 0 0 ⟨0, 0, "normal", "roman", 12, [], []⟩).2.2.1 rfl
  · exact (style_tags_open_close testM 0 0 ⟨0, 0, "normal", "roman", 12, [], []⟩).2.2.2 rfl

/-! ### C9: request fails exactly on disallowed encodings -/

/-- C9: for a response whose status line unpacks into three parts and whose
header block parses up to the blank separator line, `request` fails if and
only if the parsed headers contain a `transfer-encoding` or
`content-encoding` key (the `assert` in url.py lines 79-82), and when neither
is present it returns exactly the remaining stream as the page content — so
on a rejected response no content reaches the caller. -/
theorem request_fails_iff_encoding (statusline : String) (rest : List String)
    (headers : List (String × String)) (content : List String)
    (a b c : List Char)
    (hs : splitSpace2 statusline.data = [a, b, c])
    (hh : parseHeaders [] rest = some (headers, content)) :
    (request (statusline :: rest) = none ↔
      (headers.any (fun p => p.1 == "transfer-encoding")
        || headers.any (fun p => p.1 == "content-encoding")) = true) ∧
    ((headers.any (fun p => p.1 == "transfer-encoding")
        || headers.any (fun p => p.1 == "content-encoding")) = false →
      request (statusline :: rest) = some (String.join content)) := by
  have hreq : request (statusline :: rest) =
      if (headers.any (fun p => p.1 == "transfer-encoding")
          || headers.any (fun p => p.1 == "content-encoding")) = true then none
      else some (String.join content) := by
    simp only [request]
    rw [hs, hh]
  constructor
  · rw [hreq]
    constructor
    · intro hnone
      by_contra hb
      rw [if_neg hb] at hnone
      exact Option.some_ne_none _ hnone
    · intro hb
      rw [if_pos hb]
  · intro hb
    rw [hreq, if_neg (by rw [hb]; exact Bool.false_ne_true)]

/-- C9 witness: a concrete plain response yields its content, and the same
response with a `Transfer-Encoding` header added fails. -/
theorem request_fails_iff_encoding_witness :
    request ["HTTP/1.0 200 OK\n", "Content-Type: text/html\n", "\n", "hello world"]
      = some "hello world" ∧
    request ["HTTP/1.0 200 OK\n", "Transfer-Encoding: chunked\n", "\n", "hello world"]
      = none := by
  constructor
  · exact (request_fails_iff_encoding "HTTP/1.0 200 OK\n"
      ["Content-Type: text/html\n", "\n", "hello world"]
      [("content-type", "text/html")] ["hello world"]
      "HTTP/1.0".data "200".data "OK\n".data rfl rfl).2 rfl
  · exact (request_fails_iff_encoding "HTTP/1.0 200 OK\n"
      ["Transfer-Encoding: chunked\n", "\n", "hello world"]
      [("transfer-encoding", "chunked")] ["hello world"]
      "HTTP/1.0".data "200".data "OK\n".data rfl rfl).1.mpr rfl

/-! ### C10: oversized words are never split -/

/-- C10: when a word measures wider than the box width (and the state is
reachable: an empty pending line implies `cursor_x = 0`, which holds
initially and after every flush), `layout_word` first flushes any pending
line (a flush on an empty line is a no-op), then places the whole word as the
single entry of the new line at relative x-offset 0; the eventual flush of
that line emits it as exactly one fragment carrying the full word, which
extends past the right edge (`0 + width-of-word > width`). The word is never
split across fragments. -/
theorem oversized_word_single_fragment (M : Metrics) (width sx sy : ℚ)
    (st : IState) (word : String)
    (hinv : st.line = [] → st.cursor_x = 0)
    (hpos : 0 ≤ st.cursor_x)
    (hw : width < M.measure ⟨st.size, st.weight, st.style⟩ word) :
    (layout_word M width sx sy st word).line
      = [(0, word, ⟨st.size, st.weight, st.style⟩)] ∧
    (layout_word M width sx sy st word).display_list
      = (flush M sx sy st).display_list ∧
    (layout_word M width sx sy st word).cursor_x
      = M.measure ⟨st.size, st.weight, st.style⟩ word
        + M.measure ⟨st.size, st.weight, st.style⟩ " " ∧
    (flush M sx sy (layout_word M width sx sy st word)).display_list
      = (layout_word M width sx sy st word).display_list
        ++ [⟨sx, sy + ((layout_word M width sx sy st word).cursor_y
              + 5/4 * M.ascent ⟨st.size, st.weight, st.style⟩)
              - M.ascent ⟨st.size, st.weight, st.style⟩, word,
             ⟨st.size, st.weight, st.style⟩⟩] ∧
    width < 0 + M.measure ⟨st.size, st.weight, st.style⟩ word := by
  have hcond : st.cursor_x + M.measure ⟨st.size, st.weight, st.style⟩ word > width := by
    linarith
  have hflush : (flush M sx sy st).cursor_x = 0 ∧ (flush M sx sy st).line = []
      ∧ (flush M sx sy st).weight = st.weight ∧ (flush M sx sy st).style = st.style
      ∧ (flush M sx sy st).size = st.size := by
    rcases hline : st.line with _ | ⟨entry, restLine⟩
    · rw [flush_empty_line M sx sy st hline]
      exact ⟨hinv hline, hline, rfl, rfl, rfl⟩
    · unfold flush
      rw [hline]
      exact ⟨rfl, rfl, rfl, rfl, rfl⟩
  have hlw : layout_word M width sx sy st word =
      { cursor_x := M.measure ⟨st.size, st.weight, st.style⟩ word
          + M.measure ⟨st.size, st.weight, st.style⟩ " "
        cursor_y := (flush M sx sy st).cursor_y
        weight := st.weight, style := st.style, size := st.size
        line := [(0, word, ⟨st.size, st.weight, st.style⟩)]
        display_list := (flush M sx sy st).display_list } := by
    simp only [layout_word]
    rw [if_pos hcond]
    rw [hflush.1, hflush.2.1, hflush.2.2.1, hflush.2.2.2.1, hflush.2.2.2.2]
    simp
  rw [hlw]
  refine ⟨rfl, rfl, rfl, ?_, by linarith⟩
  unfold flush
  simp [listMax]

/-- C10 witness: the word `longword` (measured width 80 under `testM`) in a
box of width 50 lands alone on its own line at relative x-offset 0, and the
cursor advances by its width plus one space advance (90). -/
theorem oversized_word_single_fragment_witness :
    (layout_word testM 50 13 18 ⟨0, 0, "normal", "roman", 12, [], []⟩ "longword").line
      = [(0, "longword", ⟨12, "normal", "roman"⟩)] ∧
    (layout_word testM 50 13 18 ⟨0, 0, "normal", "roman", 12, [], []⟩ "longword").cursor_x
      = 90 := by
  have hlen0 : "longword".length = 8 := rfl
  have hlen : ("longword".length : ℚ) = 8 := by rw [hlen0]; norm_num
  have hsp0 : " ".length = 1 := rfl
  have hsp : ((" ".length : ℕ) : ℚ) = 1 := by rw [hsp0]; norm_num
  have h := oversized_word_single_fragment testM 50 13 18
    ⟨0, 0, "normal", "roman", 12, [], []⟩ "longword"
    (fun _ => rfl) (by norm_num) (by show (50 : ℚ) < _; simp [testM, hlen]; norm_num)
  refine ⟨h.1, ?_⟩
  rw [h.2.2.1]
  simp [testM, hlen, hsp]
  norm_num

/-! ### C3: the bold scenario -/

/-- C3, counterexample. The claim says `"<b>Hi</b> there"` yields `"Hi"` bold
and `"there"` normal. In the code, `</b>` arrives while `<b>` is the only
open element, so `add_tag`'s length-1 guard silently drops it; `" there"` is
then parsed as a child of the still-open `<b>` and laid out bold. Under the
concrete `testM` metrics, both fragments carry the bold font. -/
theorem bold_scenario_there_is_bold :
    load testM "<b>Hi</b> there" =
      some [⟨13, 20, "Hi", ⟨12, "bold", "roman"⟩⟩,
            ⟨43, 20, "there", ⟨12, "bold", "roman"⟩⟩] ∧
    ("bold" : String) ≠ "normal" := by
  constructor
  · have hp : parse "<b>Hi</b> there"
        = some (Node.elem "b" [] [Node.text "Hi", Node.text " there"]) := rfl
    simp only [load, hp, Option.map_some']
    simp +decide [document_layout, layoutNode, layoutChildren, layoutInline,
      get_layout_mode, recurse_layout, recurse_list, open_tag, close_tag,
      layout_word, flush, splitWs, splitWsAux, listMax, testM,
      paint_tree, paint_list, HSTEP, VSTEP, WIDTH,
      show " ".length = 1 from rfl, show "Hi".length = 2 from rfl,
      show "there".length = 5 from rfl]
    norm_num
  · decide

/-- C3, amended. For every metrics service under which the three advances fit
in the 774-unit content width, the pipeline on `"<b>Hi</b> there"` yields
exactly two word fragments — `"Hi"` and `"there"` BOTH with the bold style,
because the stray `</b>` is dropped while `<b>` is the sole open element —
on the same line with the same baseline (equal y, equal font), with
`"there"`'s x-offset equal to `"Hi"`'s measured width plus one space-advance
at the (bold) style of `"Hi"`. -/
theorem bold_scenario_two_bold_words (M : Metrics)
    (h1 : M.measure ⟨12, "bold", "roman"⟩ "Hi" ≤ 774)
    (h2 : M.measure ⟨12, "bold", "roman"⟩ "Hi" + M.measure ⟨12, "bold", "roman"⟩ " "
        + M.measure ⟨12, "bold", "roman"⟩ "there" ≤ 774) :
    load M "<b>Hi</b> there" = some
      [⟨13, 18 + 5/4 * M.ascent ⟨12, "bold", "roman"⟩ - M.ascent ⟨12, "bold", "roman"⟩,
        "Hi", ⟨12, "bold", "roman"⟩⟩,
       ⟨13 + (M.measure ⟨12, "bold", "roman"⟩ "Hi" + M.measure ⟨12, "bold", "roman"⟩ " "),
        18 + 5/4 * M.ascent ⟨12, "bold", "roman"⟩ - M.ascent ⟨12, "bold", "roman"⟩,
        "there", ⟨12, "bold", "roman"⟩⟩] := by
  have hp : parse "<b>Hi</b> there"
      = some (Node.elem "b" [] [Node.text "Hi", Node.text " there"]) := rfl
  have hw1 : ¬ ((774 : ℚ) < M.measure ⟨12, "bold", "roman"⟩ "Hi") := not_lt.mpr h1
  have hw2 : ¬ ((774 : ℚ) < M.measure ⟨12, "bold", "roman"⟩ "Hi"
      + M.measure ⟨12, "bold", "roman"⟩ " "
      + M.measure ⟨12, "bold", "roman"⟩ "there") := not_lt.mpr h2
  simp only [load, hp, Option.map_some']
  simp +decide [document_layout, layoutNode, layoutChildren, layoutInline,
    get_layout_mode, recurse_layout, recurse_list, open_tag, close_tag,
    layout_word, flush, splitWs, splitWsAux, listMax, testM,
    paint_tree, paint_list, HSTEP, VSTEP, WIDTH, hw1, hw2,
    show (800 : ℚ) - 2 * 13 = 774 by norm_num]

/-- C3 witness: under `testM` the advances are 20, 10, 50 (all fit in 774),
and the amended theorem instantiates to the concrete two-fragment run. -/
theorem bold_scenario_two_bold_words_witness :
    testM.measure ⟨12, "bold", "roman"⟩ "Hi" ≤ 774 ∧
    testM.measure ⟨12, "bold", "roman"⟩ "Hi" + testM.measure ⟨12, "bold", "roman"⟩ " "
      + testM.measure ⟨12, "bold", "roman"⟩ "there" ≤ 774 ∧
    load testM "<b>Hi</b> there" = some
      [⟨13, 18 + 5/4 * testM.ascent ⟨12, "bold", "roman"⟩
          - testM.ascent ⟨12, "bold", "roman"⟩, "Hi", ⟨12, "bold", "roman"⟩⟩,
       ⟨13 + (testM.measure ⟨12, "bold", "roman"⟩ "Hi"
          + testM.measure ⟨12, "bold", "roman"⟩ " "),
        18 + 5/4 * testM.ascent ⟨12, "bold", "roman"⟩
          - testM.ascent ⟨12, "bold", "roman"⟩, "there", ⟨12, "bold", "roman"⟩⟩] := by
  have h1 : testM.measure ⟨12, "bold", "roman"⟩ "Hi" ≤ 774 := by
    norm_num [testM, show "Hi".length = 2 from rfl]
  have h2 : testM.measure ⟨12, "bold", "roman"⟩ "Hi"
      + testM.measure ⟨12, "bold", "roman"⟩ " "
      + testM.measure ⟨12, "bold", "roman"⟩ "there" ≤ 774 := by
    norm_num [testM, show "Hi".length = 2 from rfl, show " ".length = 1 from rfl,
      show "there".length = 5 from rfl]
  exact ⟨h1, h2, bold_scenario_two_bold_words testM h1 h2⟩

/-! ### C4: the paint flattener -/

/-- C4: the pre-order flattener `paint_tree` appends each box's `paint()`
output before recursing, but `BlockLayout.layout` (line 312) had already
copied every child's display list into the parent's own `display_list`, and
`BlockLayout.paint` returns that accumulated list even for block-mode boxes.
Hence each inline fragment appears once for its own box and once more for
every `BlockLayout` ancestor: on `"<html><p>hi</p>"` the single `"hi"`
fragment appears twice in the flattened display list, contradicting the
exactly-once claim. -/
theorem paint_tree_duplicates_fragments :
    load testM "<html><p>hi</p>" =
      some [⟨13, 20, "hi", ⟨12, "normal", "roman"⟩⟩,
            ⟨13, 20, "hi", ⟨12, "normal", "roman"⟩⟩] := by
  have hp : parse "<html><p>hi</p>"
      = some (Node.elem "html" [] [Node.elem "p" [] [Node.text "hi"]]) := rfl
  simp only [load, hp, Option.map_some']
  simp +decide [document_layout, layoutNode, layoutChildren, layoutInline,
    get_layout_mode, recurse_layout, recurse_list, open_tag, close_tag,
    layout_word, flush, splitWs, splitWsAux, listMax, testM,
    paint_tree, paint_list, HSTEP, VSTEP, WIDTH]
  norm_num
